import Mathlib

/-!
Verification of the reactive dependency-tracking core of this repository
(`src/core/observer/index.js`, `src/core/observer/watcher.js`, and the `Dep`
class bundled into `src/core/instance/index.js`).

The JavaScript code is shallowly embedded: runtime values become the inductive
type `Vue.Value` (JavaScript object identity is a `Nat` tag, `NaN` is its own
constructor so that strict equality can be modelled exactly), each reactive
property closure (`val`, `childOb`, the captured `getter`/`setter`, its `Dep`)
becomes the record `Vue.FieldState`, the generational dependency sets of a
watcher become `Vue.WTrack`, and the per-`Dep` subscriber lists become a map
from dependency id to the list of subscriber ids.  Development-only diagnostic
hooks that have no semantic effect on state (`warn` text, `customSetter`) are
modelled as counters or elided where no call site in this repository passes
them.
-/

namespace Vue

/-- JavaScript runtime values, as far as the observer core distinguishes them:
`undef`/`nul` are `undefined`/`null`, `num` are the non-NaN numbers, `nan` is
the NaN sentinel (the only value with `x !== x`), `str`/`boolV` the remaining
primitives, and `obj i` an object or array reference with identity tag `i`
(strict equality on objects is reference identity). -/
inductive Value where
  | undef
  | nul
  | boolV (b : Bool)
  | num (n : Int)
  | nan
  | str (s : String)
  | obj (i : Nat)
deriving DecidableEq, Repr

/-- JavaScript strict equality `===` on `Value`: `NaN === NaN` is false,
objects compare by identity tag, distinct type tags never compare equal. -/
def strictEq : Value → Value → Bool
  | .undef, .undef => true
  | .nul, .nul => true
  | .boolV a, .boolV b => a == b
  | .num a, .num b => a == b
  | .str a, .str b => a == b
  | .obj a, .obj b => a == b
  | _, _ => false

/-- The JavaScript test `x !== x`, true exactly for NaN. -/
def isNaNv : Value → Bool
  | .nan => true
  | _ => false

/-- The repository's `isObject` helper (`shared/util`, not under `src/`):
`obj !== null && typeof obj === 'object'`, i.e. true exactly for objects and
arrays. -/
def isObjectV : Value → Bool
  | .obj _ => true
  | _ => false

/-! ## The reactive property closure (`defineReactive` in
`src/core/observer/index.js`, lines 173-248)

One `FieldState` is the state of one property slot of an object together with
the closure installed by `defineReactive`: `reactive` says whether the
interceptor (`reactiveGetter`/`reactiveSetter`) has been installed,
`configurable` is the property descriptor's flag, `hasGetter`/`hasSetter`
record the pre-defined accessors captured by the closure, `val` is the closure
variable `val`, `backing` is the external state read by the captured original
getter (`getter.call(obj)`), and `childOb` the cached child observer flag.
Effects are recorded in counters: `dependCalls` counts `dep.depend()`,
`childDependCalls` counts `childOb.dep.depend()`, `notifies` counts
`dep.notify()`, `observeCalls` lists the values passed to `observe`, and
`setterCalls` lists the values forwarded to the captured original setter. -/

structure FieldState where
  reactive : Bool
  configurable : Bool
  hasGetter : Bool
  hasSetter : Bool
  val : Value
  backing : Value
  childOb : Bool
  dependCalls : Nat
  childDependCalls : Nat
  notifies : Nat
  observeCalls : List Value
  setterCalls : List Value
deriving DecidableEq, Repr

/-- The value currently held by the slot: `getter ? getter.call(obj) : val`. -/
def currentValue (f : FieldState) : Value :=
  if f.hasGetter then f.backing else f.val

/-- Whether `observe` wraps a written value.  `observe` only ever returns an
observer for objects and arrays (see `observe` below); the further conditions
(extensibility, VNode-ness, policy) live on the value descriptor and are
abstracted to the container check here, which is all the field-level claims
use. -/
def observeWraps (v : Value) : Bool := isObjectV v

/-- A plain, never-intercepted data property holding `v`. -/
def plainField (v : Value) : FieldState :=
  { reactive := false, configurable := true, hasGetter := false,
    hasSetter := false, val := v, backing := Value.undef, childOb := false,
    dependCalls := 0, childDependCalls := 0, notifies := 0,
    observeCalls := [], setterCalls := [] }

/-- The body of `defineReactive(obj, key, val)` for the slot `existing`
(`none` when `obj` has no own property `key`).  `argLen2` is
`arguments.length === 2` (the `walk` call shape; `set` passes three
arguments and `argVal` is then the third argument).  Mirrors lines 180-199 of
`src/core/observer/index.js`: a property whose descriptor has
`configurable === false` is returned untouched; otherwise the pre-defined
getter/setter are captured, `val` is initialised (`val = obj[key]` only when
`(!getter || setter) && arguments.length === 2`), `childOb = observe(val)` is
computed (no call site in this repository passes `shallow`, so the
`!shallow &&` guard is always true and is elided), and the interceptor is
installed.  The dev-only `customSetter` argument is never passed by a call
site in this repository and is elided. -/
def defineReactiveOn (argLen2 : Bool) (argVal : Value) :
    Option FieldState → FieldState
  | none =>
    let v := if argLen2 then Value.undef else argVal
    { plainField v with reactive := true, childOb := observeWraps v,
                        observeCalls := [v] }
  | some f =>
    if f.configurable = false then f
    else
      let v := if argLen2 then
                 (if !f.hasGetter || f.hasSetter then currentValue f
                  else Value.undef)
               else argVal
      { f with reactive := true, val := v, childOb := observeWraps v,
               observeCalls := f.observeCalls ++ [v] }

/-- A property read, `obj[key]`.  On a reactive slot this is `reactiveGetter`
(lines 203-219): read the value, and if an active target watcher exists
(`hasTarget`), call `dep.depend()` and, when a child observer is cached,
`childOb.dep.depend()` (the `dependArray` walk over array elements touches
further dependencies of element values, not this slot's counters).  On a
plain slot it is an ordinary JavaScript read with no interception. -/
def readField (hasTarget : Bool) (f : FieldState) : Value × FieldState :=
  if f.reactive then
    let value := currentValue f
    if hasTarget then
      let f1 := { f with dependCalls := f.dependCalls + 1 }
      let f2 := if f1.childOb then
                  { f1 with childDependCalls := f1.childDependCalls + 1 }
                else f1
      (value, f2)
    else (value, f)
  else (currentValue f, f)

/-- A property write, `obj[key] = newVal`.  On a reactive slot this is
`reactiveSetter` (lines 220-246): read the previous value, return unchanged
when `newVal === value || (newVal !== newVal && value !== value)`, return
unchanged when the slot was defined with a getter but no setter (the #7981
guard, line 233), otherwise store through the captured setter or into `val`,
recompute `childOb = observe(newVal)`, and call `dep.notify()`.  On a plain
slot it is an ordinary JavaScript write (an accessor property without a
setter silently ignores the write). -/
def writeField (f : FieldState) (newVal : Value) : FieldState :=
  if f.reactive then
    let value := currentValue f
    if strictEq newVal value || (isNaNv newVal && isNaNv value) then f
    else if f.hasGetter && !f.hasSetter then f
    else
      let f1 := if f.hasSetter then
                  { f with setterCalls := f.setterCalls ++ [newVal] }
                else { f with val := newVal }
      { f1 with childOb := observeWraps newVal,
                observeCalls := f1.observeCalls ++ [newVal],
                notifies := f1.notifies + 1 }
  else
    if f.hasGetter && !f.hasSetter then f
    else if f.hasSetter then { f with setterCalls := f.setterCalls ++ [newVal] }
    else { f with val := newVal }

/-! ## `Dep.notify` (the `Dep` class in `src/core/instance/index.js`,
lines 73-89 of its second bundled module)

A `Dep`'s `subs` array is modelled as the list of subscriber (watcher) ids in
insertion order; watcher ids are unique, so the id stands for the watcher.
`notify` first copies the list (`this.subs.slice()`), then, when the build is
non-production and `config.async` is false, sorts the copy ascending by id
(`subs.sort((a, b) => a.id - b.id)` — the sort is modelled by insertion sort,
which has the same observable result), and finally iterates over the copy
invoking `update()` on each element. -/

/-- The snapshot `notify` iterates over: a copy of `subs`, sorted ascending by
subscriber id exactly when `process.env.NODE_ENV !== 'production' &&
!config.async`. -/
def notifySnapshot (dev async : Bool) (subs : List Nat) : List Nat :=
  let snapshot := subs
  if dev && !async then List.insertionSort (· ≤ ·) snapshot else snapshot

/-- The dispatch loop of `notify`: fold `update()` over the snapshot, where
`update` is an arbitrary state transformer (it may mutate any `subs` list held
inside the state, e.g. remove the running subscriber).  Returns the final
state and the sequence of subscribers whose `update()` was invoked, in order. -/
def notifyRun {σ : Type} (update : σ → Nat → σ) (s : σ) (order : List Nat) :
    σ × List Nat :=
  order.foldl (fun acc i => (update acc.1 i, acc.2 ++ [i])) (s, [])

/-! ## Watcher dependency generations (`src/core/observer/watcher.js`)

`WTrack` is the generational bookkeeping of one watcher: `depIds`/`deps` are
the previous generation (a set of dependency ids and the parallel array of
`Dep` references, here both lists of ids), `newDepIds`/`newDeps` the
generation being collected.  The subscriber lists of all `Dep` objects are a
map `SubsMap` from dependency id to the list of watcher ids (in `addSub` push
order); `Dep.addSub` pushes, `Dep.removeSub` uses the `remove` helper of
`core/util` (not under `src/`), which splices out the first occurrence —
modelled by `List.erase`. -/

structure WTrack where
  depIds : List Nat
  newDepIds : List Nat
  deps : List Nat
  newDeps : List Nat
deriving DecidableEq, Repr

/-- Subscriber lists of all dependencies, by dependency id. -/
def SubsMap : Type := Nat → List Nat

/-- `dep.addSub(watcher)`: push the watcher onto that dependency's list. -/
def addSub (m : SubsMap) (d w : Nat) : SubsMap :=
  fun e => if e = d then m d ++ [w] else m e

/-- `dep.removeSub(watcher)`: splice out the first occurrence. -/
def removeSub (m : SubsMap) (d w : Nat) : SubsMap :=
  fun e => if e = d then (m d).erase w else m e

/-- `Watcher.addDep(dep)` (lines 159-168): skip if the id is already in the
new generation; otherwise record it in `newDepIds`/`newDeps` and, if it is
not in the previous generation either, subscribe via `dep.addSub(this)`. -/
def addDep (w : Nat) (st : WTrack × SubsMap) (d : Nat) : WTrack × SubsMap :=
  let t := st.1
  if d ∈ t.newDepIds then st
  else
    let t1 := { t with newDepIds := t.newDepIds ++ [d],
                       newDeps := t.newDeps ++ [d] }
    if d ∈ t.depIds then (t1, st.2) else (t1, addSub st.2 d w)

/-- `Watcher.cleanupDeps()` (lines 173-189): walk `deps` from the end,
removing this watcher from every dependency absent from the new generation;
then swap the generations (`depIds := newDepIds`, `deps := newDeps`) and
clear the new one. -/
def cleanupDeps (w : Nat) (st : WTrack × SubsMap) : WTrack × SubsMap :=
  let t := st.1
  let m := (t.deps.reverse).foldl
    (fun m d => if d ∈ t.newDepIds then m else removeSub m d w) st.2
  ({ depIds := t.newDepIds, newDepIds := [],
     deps := t.newDeps, newDeps := [] }, m)

/-- One completed evaluation of watcher `w` whose evaluation function reached
`dep.depend()` on exactly the dependency ids `reads` (in that order, possibly
with repetitions): each `depend()` runs `Dep.target.addDep(dep)` with `w` as
the target, and the evaluation ends with `cleanupDeps`. -/
def runReads (w : Nat) (st : WTrack × SubsMap) (reads : List Nat) :
    WTrack × SubsMap :=
  cleanupDeps w (reads.foldl (addDep w) st)

/-! ## `Watcher.get` and the target stack (`Watcher.get`, lines 105-150, and
`pushTarget`/`popTarget` of the `Dep` module) -/

/-- `pushTarget(t)`: push onto `targetStack` and set `Dep.target`.  The model
keeps the stack top at the head of the list. -/
def pushTarget (t : Nat) (stack : List Nat) : List Nat := t :: stack

/-- `popTarget()`: pop and restore `Dep.target` to the new top. -/
def popTarget (stack : List Nat) : List Nat := stack.tail

/-- `Dep.target`: the top of the target stack, if any. -/
def depTarget (stack : List Nat) : Option Nat := stack.head?

structure GetState where
  stack : List Nat
  track : WTrack
  subs : SubsMap
  handled : Nat

/-- `dep.depend()`: register the currently active target, if any, via
`Dep.target.addDep(dep)` (a no-op when no target is active). -/
def dependStep (stack : List Nat) (st : WTrack × SubsMap) (d : Nat) :
    WTrack × SubsMap :=
  match depTarget stack with
  | some w => addDep w st d
  | none => st

/-- `Watcher.get()` for watcher `w`: `pushTarget(this)`; run the evaluation
function, whose reads reach `dep.depend()` on the ids `reads` under the
pushed stack; on a thrown evaluation error (`throws`), catch and
`handleError` it when `this.user`, otherwise let it propagate; in the
`finally` block `popTarget()` and `this.cleanupDeps()` run in every case.
The result's second component is whether the error escaped to the caller.
The `isRender` flag mirrors the constructor's `isRenderWatcher` argument; the
body of `get` never consults it (being the render watcher only sets
`vm._watcher` in the constructor), so it is an unused parameter here exactly
as in the source.  The dev-only `traverse(value)` deep walk touches
dependencies of nested values, not the stack or this watcher's generations,
and is not modelled. -/
def getModel (w : Nat) (user isRender : Bool) (reads : List Nat)
    (throws : Bool) (s : GetState) : GetState × Bool :=
  let _ := isRender
  let stack1 := pushTarget w s.stack
  let st1 := reads.foldl (fun st d => dependStep stack1 st d) (s.track, s.subs)
  let handled1 := if throws && user then s.handled + 1 else s.handled
  let stack2 := popTarget stack1
  let st2 := cleanupDeps w st1
  ({ stack := stack2, track := st2.1, subs := st2.2, handled := handled1 },
   throws && !user)

/-! ## `Watcher.run` (lines 213-246) -/

structure RunWatcher where
  active : Bool
  deep : Bool
  user : Bool
  value : Value
  cbCalls : List (Value × Value)
  handled : Nat
deriving DecidableEq, Repr

/-- `Watcher.run()`: do nothing unless `active`; re-evaluate (the fresh value
is the parameter `newVal`; the tracking effects of `get` are `getModel`
above), then, when `value !== this.value || isObject(value) || this.deep`,
store the new value and invoke the callback with `(value, oldValue)` —
wrapped in try/catch with `handleError` when `this.user`, bare otherwise.
`cbThrows` says whether the callback throws when invoked; the second result
component is whether that error escaped `run`. -/
def runModel (rw : RunWatcher) (newVal : Value) (cbThrows : Bool) :
    RunWatcher × Bool :=
  if rw.active then
    let value := newVal
    if !strictEq value rw.value || isObjectV value || rw.deep then
      let oldValue := rw.value
      let rw1 := { rw with value := value,
                           cbCalls := rw.cbCalls ++ [(value, oldValue)] }
      if rw.user then
        (if cbThrows then { rw1 with handled := rw1.handled + 1 } else rw1,
         false)
      else
        (rw1, cbThrows)
    else (rw, false)
  else (rw, false)

/-! ## `Watcher.teardown` (lines 270-284) -/

structure TDState where
  active : Bool
  deps : List Nat
  subs : SubsMap
  vmWatchers : List Nat
  destroying : Bool

/-- `Watcher.teardown()` for watcher `w`: if `active`, remove `w` from
`vm._watchers` (skipped while the vm is being destroyed), remove `w` from
every held dependency's subscriber list (walking `deps` from the end), and
clear `active`; otherwise do nothing.  The function is total: no code path
throws. -/
def teardownModel (w : Nat) (s : TDState) : TDState :=
  if s.active then
    let vw := if !s.destroying then s.vmWatchers.erase w else s.vmWatchers
    let m := (s.deps.reverse).foldl (fun m d => removeSub m d w) s.subs
    { s with active := false, vmWatchers := vw, subs := m }
  else s

/-! ## `observe` (`src/core/observer/index.js`, lines 140-168) -/

/-- What `observe` inspects about its argument: `isObj` is
`isObject(value)`, `isVNode` is `value instanceof VNode`, `hasOb` is the
existing observer when `hasOwn(value, ob-key)` holds and that slot is an
`Observer` instance, `isArray`/`isPlain` are `Array.isArray`/`isPlainObject`,
`extensible` is `Object.isExtensible(value)`, and `isVue` the `_isVue`
instance marker. -/
structure VDesc where
  isObj : Bool
  isVNode : Bool
  hasOb : Option Nat
  isArray : Bool
  isPlain : Bool
  extensible : Bool
  isVue : Bool
deriving DecidableEq, Repr

/-- The result of `observe`: the existing observer, a freshly created one, or
no observer (`undefined`). -/
inductive ObsResult where
  | existing (i : Nat)
  | created
  | noneR
deriving DecidableEq, Repr

/-- `observe(value)` with the global `shouldObserve` flag and the
server-rendering check as parameters: return `undefined` unless the value is
a non-VNode object; return the existing observer when the marker is present;
otherwise create one only when observation is enabled, not server rendering,
the value is an array or plain object, extensible, and not a Vue instance.
(`asRootData` only bumps `vmCount` on the returned observer and does not
change which observer is returned.) -/
def observe (shouldObserve serverRendering : Bool) (v : VDesc) : ObsResult :=
  if !v.isObj || v.isVNode then .noneR
  else
    match v.hasOb with
    | some i => .existing i
    | none =>
      if shouldObserve && !serverRendering && (v.isArray || v.isPlain)
          && v.extensible && !v.isVue then
        .created
      else .noneR

/-! ## `set` (`src/core/observer/index.js`, lines 257-287)

`set(target, key, val)` is modelled over a target descriptor `STarget`.  The
JavaScript facts the function depends on: `Array.isArray` is true only for
arrays; the `in` operator throws a `TypeError` when its right operand is
`undefined`, `null`, or a primitive; `key in target` on an object checks own
keys and the prototype chain (a plain object inherits `Object.prototype`);
assignment `target[key] = val` runs the installed interceptor (`writeField`).
`isUndef`/`isPrimitive`/`isValidArrayIndex` are `shared/util` helpers not
under `src/`; they are modelled from the spec's "primitive/sentinel targets"
wording and standard behaviour: `isUndef` is undefined-or-null, `isPrimitive`
is string/number/boolean (symbols do not occur among `Value`s here), and
`isValidArrayIndex` accepts exactly the non-negative integers. -/

/-- The own enumerable keys of `Object.prototype`' s namesake properties —
the keys for which `key in Object.prototype` holds on a plain object. -/
def protoKeys : List String :=
  ["constructor", "hasOwnProperty", "isPrototypeOf", "propertyIsEnumerable",
   "toLocaleString", "toString", "valueOf",
   "__defineGetter__", "__defineSetter__", "__lookupGetter__",
   "__lookupSetter__", "__proto__"]

def keyInObjectProto (k : String) : Bool := protoKeys.contains k

/-- An observed-or-plain object target: its own property slots, whether it
carries an observer (`target.__ob__`), that observer's `vmCount`, and the
`_isVue` marker. -/
structure OTarget where
  fields : List (String × FieldState)
  observed : Bool
  vmCount : Nat
  isVue : Bool
deriving DecidableEq, Repr

/-- An array target: element count and whether it carries an observer.
(Arrays are never a vm's root `$data`, so their `vmCount` is 0.) -/
structure ATarget where
  len : Nat
  observed : Bool
deriving DecidableEq, Repr

/-- `set`'s possible targets. -/
inductive STarget where
  | undef
  | nullv
  | prim (v : Value)
  | arr (a : ATarget)
  | obj (o : OTarget)
deriving DecidableEq, Repr

/-- The `in`-operator `TypeError` raised on non-object operands. -/
inductive JsErr where
  | typeError
deriving DecidableEq, Repr

def findField : List (String × FieldState) → String → Option FieldState
  | [], _ => none
  | (k, f) :: rest, key => if k = key then some f else findField rest key

def updateAssoc (fs : List (String × FieldState)) (key : String)
    (g : FieldState → FieldState) : List (String × FieldState) :=
  match fs with
  | [] => []
  | (k, f) :: rest =>
    if k = key then (k, g f) :: rest else (k, f) :: updateAssoc rest key g

def putAssoc (fs : List (String × FieldState)) (key : String)
    (f : FieldState) : List (String × FieldState) :=
  match fs with
  | [] => [(key, f)]
  | (k, g) :: rest =>
    if k = key then (k, f) :: rest else (k, g) :: putAssoc rest key f

/-- Ordinary JavaScript assignment `target[key] = val` on an object: run the
slot's setter path when the key exists, otherwise create a plain property. -/
def jsAssign (fs : List (String × FieldState)) (key : String) (val : Value) :
    List (String × FieldState) :=
  match findField fs key with
  | some _ => updateAssoc fs key (fun f => writeField f val)
  | none => fs ++ [(key, plainField val)]

/-- `isValidArrayIndex(key)` over string keys: a non-negative integer. -/
def parseArrayIndex (k : String) : Option Nat := k.toNat?

/-- What `set` did, together with the mutated target where one exists. -/
inductive SetOutcome where
  /-- The array branch: `target.length = Math.max(target.length, key)` then
  `target.splice(key, 1, val)`.  The intercepted `splice` of
  `src/core/observer/array.js` is not under `src/`.  Modelled from the spec:
  a sequence mutator notifies the identity Dependency and wraps inserted
  container elements. -/
  | spliced (a : ATarget)
  /-- The `key in target && !(key in Object.prototype)` branch: a normal
  property write, no identity notification. -/
  | wroteExisting (o : OTarget)
  /-- The `target._isVue || (ob && ob.vmCount)` guard: warned (dev only) and
  returned without mutating anything. -/
  | refusedRoot
  /-- `!ob`: plain assignment on an unobserved target. -/
  | rawAssigned (o : OTarget)
  /-- New reactive key: `defineReactive(ob.value, key, val)` then
  `ob.dep.notify()`. -/
  | definedReactive (o : OTarget)
  /-- Raw `target.length` assignment on an array (no interception). -/
  | lengthAssigned (a : ATarget)
  /-- `defineReactive` on an array object for a non-index key. -/
  | arrDefinedReactive (a : ATarget)
  /-- Plain assignment of a non-index key on an unobserved array. -/
  | arrRawAssigned (a : ATarget)
deriving DecidableEq, Repr

structure SetResult where
  ret : Value
  outcome : SetOutcome
  /-- Calls to `ob.dep.notify()` (the container's identity Dependency). -/
  identityNotifies : Nat
deriving DecidableEq, Repr

/-- `key in target` for the modelled targets that are objects. -/
def arrKeyIn (key : String) (a : ATarget) : Bool :=
  (match parseArrayIndex key with
   | some i => decide (i < a.len)
   | none => false)
  || key == "length" || keyInObjectProto key

/-- `set(target, key, val)`.  The first component counts `warn` calls emitted
before `set` finished or threw (all of them are gated on a non-production
build, the `dev` flag).  Note the order of the source: the
invalid-target check only warns in dev and then falls through, so the
ensuing `key in target` test throws a `TypeError` for `undefined`, `null`,
and primitive targets — in production without any prior report. -/
def set (dev : Bool) (t : STarget) (key : String) (val : Value) :
    Nat × Except JsErr SetResult :=
  let warns :=
    match t with
    | .undef | .nullv | .prim _ => if dev then 1 else 0
    | _ => 0
  match t with
  | .undef | .nullv | .prim _ =>
    -- Array.isArray(target) is false; `key in target` throws.
    (warns, .error .typeError)
  | .arr a =>
    match parseArrayIndex key with
    | some i =>
      -- target.length = Math.max(target.length, key); target.splice(key, 1, val)
      let len1 := max a.len i
      let a1 := { a with len := max len1 (i + 1) }
      (warns, .ok { ret := val, outcome := .spliced a1,
                    identityNotifies := if a.observed then 1 else 0 })
    | none =>
      if arrKeyIn key a && !keyInObjectProto key then
        -- only the "length" key reaches here: a raw, un-intercepted write
        (warns, .ok { ret := val, outcome := .lengthAssigned a,
                      identityNotifies := 0 })
      else if !a.observed then
        (warns, .ok { ret := val, outcome := .arrRawAssigned a,
                      identityNotifies := 0 })
      else
        (warns, .ok { ret := val, outcome := .arrDefinedReactive a,
                      identityNotifies := 1 })
  | .obj o =>
    if ((findField o.fields key).isSome || keyInObjectProto key)
        && !keyInObjectProto key then
      (warns, .ok { ret := val,
                    outcome := .wroteExisting
                      { o with fields := jsAssign o.fields key val },
                    identityNotifies := 0 })
    else if o.isVue || (o.observed && o.vmCount > 0) then
      (warns + (if dev then 1 else 0),
       .ok { ret := val, outcome := .refusedRoot, identityNotifies := 0 })
    else if !o.observed then
      (warns, .ok { ret := val,
                    outcome := .rawAssigned
                      { o with fields := jsAssign o.fields key val },
                    identityNotifies := 0 })
    else
      let f1 := defineReactiveOn false val (findField o.fields key)
      (warns, .ok { ret := val,
                    outcome := .definedReactive
                      { o with fields := putAssoc o.fields key f1 },
                    identityNotifies := 1 })

/-! ## Invariants and concrete fixtures -/

/-- The bookkeeping invariant a watcher `w` satisfies between (and, as proved
below, during) evaluations: `newDeps` mirrors `newDepIds` and `deps` mirrors
`depIds` (ids are collected in push order and the pairs are swapped
together), both id sets are duplicate-free, `w` sits on exactly the
subscriber lists of the dependencies in the two generations, and on each list
at most once. -/
def TrackInv (w : Nat) (st : WTrack × SubsMap) : Prop :=
  st.1.newDeps = st.1.newDepIds ∧
  st.1.deps = st.1.depIds ∧
  st.1.newDepIds.Nodup ∧
  st.1.depIds.Nodup ∧
  (∀ d, w ∈ st.2 d ↔ (d ∈ st.1.depIds ∨ d ∈ st.1.newDepIds)) ∧
  (∀ d, (st.2 d).count w ≤ 1)

/-- A reactive slot defined over a pre-existing getter with no setter
(the #7981 situation), currently reading `0`. -/
def gOnlyField : FieldState :=
  { reactive := true, configurable := true, hasGetter := true,
    hasSetter := false, val := Value.undef, backing := Value.num 0,
    childOb := false, dependCalls := 0, childDependCalls := 0, notifies := 0,
    observeCalls := [], setterCalls := [] }

/-- An ordinary reactive data slot currently holding `0`. -/
def dataField : FieldState :=
  { reactive := true, configurable := true, hasGetter := false,
    hasSetter := false, val := Value.num 0, backing := Value.undef,
    childOb := false, dependCalls := 0, childDependCalls := 0, notifies := 0,
    observeCalls := [], setterCalls := [] }

/-- A non-configurable, never-intercepted property holding `7`. -/
def frozenField : FieldState :=
  { reactive := false, configurable := false, hasGetter := false,
    hasSetter := false, val := Value.num 7, backing := Value.undef,
    childOb := false, dependCalls := 0, childDependCalls := 0, notifies := 0,
    observeCalls := [], setterCalls := [] }

/-- The empty watcher generations. -/
def emptyTrack : WTrack :=
  { depIds := [], newDepIds := [], deps := [], newDeps := [] }

/-- The empty subscriber-list map. -/
def emptySubs : SubsMap := fun _ => []

/-- An observed, non-root object with one reactive field `a` holding `0`. -/
def sampleObj : OTarget :=
  { fields := [("a", dataField)], observed := true, vmCount := 0,
    isVue := false }

/-! ## Helper lemmas -/

theorem addSub_apply_self (m : SubsMap) (d w : Nat) :
    addSub m d w d = m d ++ [w] := by
  simp [addSub]

theorem addSub_apply_ne (m : SubsMap) (d w e : Nat) (h : e ≠ d) :
    addSub m d w e = m e := by
  simp [addSub, h]

theorem removeSub_apply_self (m : SubsMap) (d w : Nat) :
    removeSub m d w d = (m d).erase w := by
  simp [removeSub]

theorem removeSub_apply_ne (m : SubsMap) (d w e : Nat) (h : e ≠ d) :
    removeSub m d w e = m e := by
  simp [removeSub, h]

theorem not_mem_erase_self_of_count_le_one {l : List Nat} {w : Nat}
    (h : l.count w ≤ 1) : w ∉ l.erase w := by
  have hc := List.count_erase_self w l
  have h0 : (l.erase w).count w = 0 := by omega
  exact List.count_eq_zero.mp h0

theorem count_erase_le (l : List Nat) (w e : Nat) :
    (l.erase e).count w ≤ l.count w := by
  by_cases h : w = e
  · subst h
    have := List.count_erase_self w l
    omega
  · rw [List.count_erase_of_ne h]

theorem count_le_one_removeSub (m : SubsMap) (d w : Nat)
    (h : ∀ e, (m e).count w ≤ 1) : ∀ e, ((removeSub m d w) e).count w ≤ 1 := by
  intro e
  by_cases he : e = d
  · subst he
    rw [removeSub_apply_self]
    exact le_trans (count_erase_le _ _ _) (h e)
  · rw [removeSub_apply_ne _ _ _ _ he]
    exact h e

/-- The `cleanupDeps` removal loop: after folding the guarded `removeSub`
over `ds`, watcher `w` remains on dependency `e`'s list exactly when it was
there before and `e` is not scheduled for removal (`e ∈ ds` outside `ids`).
Duplicate-freedom of each list (count at most 1) makes one `erase` a full
removal. -/
theorem cleanupFold_spec (ids : List Nat) (w : Nat) : ∀ (ds : List Nat)
    (m : SubsMap), (∀ d, (m d).count w ≤ 1) →
    (∀ e, ((ds.foldl (fun m d => if d ∈ ids then m else removeSub m d w) m) e).count w ≤ 1) ∧
    (∀ e, w ∈ (ds.foldl (fun m d => if d ∈ ids then m else removeSub m d w) m) e ↔
      (w ∈ m e ∧ (e ∈ ds → e ∈ ids)))
  | [], m, h => by
    refine ⟨h, fun e => ?_⟩
    simp
  | d :: ds, m, h => by
    by_cases hd : d ∈ ids
    · have ih := cleanupFold_spec ids w ds m h
      refine ⟨fun e => by simpa [hd] using ih.1 e, fun e => ?_⟩
      have := ih.2 e
      simp only [List.foldl_cons, if_pos hd] at *
      rw [this]
      constructor
      · rintro ⟨hm, hi⟩
        refine ⟨hm, fun hmem => ?_⟩
        rcases List.mem_cons.mp hmem with h1 | h1
        · exact h1 ▸ hd
        · exact hi h1
      · rintro ⟨hm, hi⟩
        exact ⟨hm, fun h1 => hi (List.mem_cons_of_mem _ h1)⟩
    · have h1 : ∀ e, ((removeSub m d w) e).count w ≤ 1 :=
        count_le_one_removeSub m d w h
      have ih := cleanupFold_spec ids w ds (removeSub m d w) h1
      refine ⟨fun e => by simpa [hd] using ih.1 e, fun e => ?_⟩
      have hmem := ih.2 e
      simp only [List.foldl_cons, if_neg hd] at *
      rw [hmem]
      by_cases he : e = d
      · subst he
        rw [removeSub_apply_self]
        have hni : w ∉ (m e).erase w := not_mem_erase_self_of_count_le_one (h e)
        constructor
        · rintro ⟨hw, -⟩
          exact absurd hw hni
        · rintro ⟨-, hi⟩
          exact absurd (hi (List.mem_cons_self _ _)) hd
      · rw [removeSub_apply_ne _ _ _ _ he]
        constructor
        · rintro ⟨hw, hi⟩
          refine ⟨hw, fun hmem => ?_⟩
          rcases List.mem_cons.mp hmem with h2 | h2
          · exact absurd h2 he
          · exact hi h2
        · rintro ⟨hw, hi⟩
          exact ⟨hw, fun h2 => hi (List.mem_cons_of_mem _ h2)⟩

/-- The `teardown` removal loop: after removing `w` from every dependency in
`ds`, it remains on `e`'s list exactly when it was there and `e ∉ ds`. -/
theorem teardownFold_spec (w : Nat) : ∀ (ds : List Nat) (m : SubsMap),
    (∀ d, (m d).count w ≤ 1) →
    (∀ e, w ∈ (ds.foldl (fun m d => removeSub m d w) m) e ↔
      (w ∈ m e ∧ e ∉ ds))
  | [], m, h => by simp
  | d :: ds, m, h => by
    have h1 : ∀ e, ((removeSub m d w) e).count w ≤ 1 :=
      count_le_one_removeSub m d w h
    intro e
    have ih := teardownFold_spec w ds (removeSub m d w) h1 e
    simp only [List.foldl_cons] at *
    rw [ih]
    by_cases he : e = d
    · subst he
      rw [removeSub_apply_self]
      have hni : w ∉ (m e).erase w := not_mem_erase_self_of_count_le_one (h e)
      simp [hni]
    · rw [removeSub_apply_ne _ _ _ _ he]
      constructor
      · rintro ⟨hw, hi⟩
        exact ⟨hw, by simp [he, hi]⟩
      · rintro ⟨hw, hi⟩
        exact ⟨hw, fun h2 => hi (List.mem_cons_of_mem _ h2)⟩

theorem addDep_eq_of_mem {w d : Nat} {st : WTrack × SubsMap}
    (h : d ∈ st.1.newDepIds) : addDep w st d = st := by
  simp [addDep, h]

theorem addDep_eq_of_old {w d : Nat} {st : WTrack × SubsMap}
    (h : d ∉ st.1.newDepIds) (h2 : d ∈ st.1.depIds) :
    addDep w st d =
      ({ st.1 with newDepIds := st.1.newDepIds ++ [d],
                   newDeps := st.1.newDeps ++ [d] }, st.2) := by
  simp [addDep, h, h2]

theorem addDep_eq_of_fresh {w d : Nat} {st : WTrack × SubsMap}
    (h : d ∉ st.1.newDepIds) (h2 : d ∉ st.1.depIds) :
    addDep w st d =
      ({ st.1 with newDepIds := st.1.newDepIds ++ [d],
                   newDeps := st.1.newDeps ++ [d] }, addSub st.2 d w) := by
  simp [addDep, h, h2]

theorem addDep_inv {w d : Nat} {st : WTrack × SubsMap} (h : TrackInv w st) :
    TrackInv w (addDep w st d) := by
  obtain ⟨h1, h2, h3, h4, h5, h6⟩ := h
  by_cases hn : d ∈ st.1.newDepIds
  · rw [addDep_eq_of_mem hn]
    exact ⟨h1, h2, h3, h4, h5, h6⟩
  · by_cases ho : d ∈ st.1.depIds
    · rw [addDep_eq_of_old hn ho]
      refine ⟨by simp [h1], h2, ?_, h4, fun e => ?_, h6⟩
      · simpa [List.nodup_append, hn] using h3
      · rw [h5 e]
        by_cases he : e = d
        · subst he
          simp [ho]
        · simp [he]
    · rw [addDep_eq_of_fresh hn ho]
      refine ⟨by simp [h1], h2, ?_, h4, fun e => ?_, fun e => ?_⟩
      · simpa [List.nodup_append, hn] using h3
      · dsimp only
        by_cases he : e = d
        · subst he
          rw [addSub_apply_self]
          simp [ho]
        · rw [addSub_apply_ne _ _ _ _ he, h5 e]
          simp [he]
      · dsimp only
        by_cases he : e = d
        · subst he
          rw [addSub_apply_self]
          have hw : w ∉ st.2 e := by
            rw [h5 e]
            simp [ho, hn]
          have : (st.2 e).count w = 0 := List.count_eq_zero.mpr hw
          simp [List.count_append, this]
        · rw [addSub_apply_ne _ _ _ _ he]
          exact h6 e

/-- Folding `addDep` over the read sequence preserves the bookkeeping
invariant, leaves the previous generation untouched, and makes the new
generation's membership the union of the previous new generation and the
reads. -/
theorem foldl_addDep_spec (w : Nat) : ∀ (reads : List Nat)
    (st : WTrack × SubsMap), TrackInv w st →
    TrackInv w (reads.foldl (addDep w) st) ∧
    (reads.foldl (addDep w) st).1.depIds = st.1.depIds ∧
    (reads.foldl (addDep w) st).1.deps = st.1.deps ∧
    (∀ e, e ∈ (reads.foldl (addDep w) st).1.newDepIds ↔
      (e ∈ st.1.newDepIds ∨ e ∈ reads))
  | [], st, h => by
    refine ⟨h, rfl, rfl, fun e => by simp⟩
  | d :: reads, st, h => by
    have hstep : TrackInv w (addDep w st d) := addDep_inv h
    have ih := foldl_addDep_spec w reads (addDep w st d) hstep
    have hids : (addDep w st d).1.depIds = st.1.depIds ∧
        (addDep w st d).1.deps = st.1.deps := by
      by_cases hn : d ∈ st.1.newDepIds
      · rw [addDep_eq_of_mem hn]
        exact ⟨rfl, rfl⟩
      · by_cases ho : d ∈ st.1.depIds
        · rw [addDep_eq_of_old hn ho]
          exact ⟨rfl, rfl⟩
        · rw [addDep_eq_of_fresh hn ho]
          exact ⟨rfl, rfl⟩
    have hnew : ∀ e, e ∈ (addDep w st d).1.newDepIds ↔
        (e ∈ st.1.newDepIds ∨ e = d) := by
      intro e
      by_cases hn : d ∈ st.1.newDepIds
      · rw [addDep_eq_of_mem hn]
        constructor
        · exact fun h1 => Or.inl h1
        · rintro (h1 | h1)
          · exact h1
          · exact h1 ▸ hn
      · by_cases ho : d ∈ st.1.depIds
        · rw [addDep_eq_of_old hn ho]
          simp
        · rw [addDep_eq_of_fresh hn ho]
          simp
    refine ⟨ih.1, ?_, ?_, fun e => ?_⟩
    · rw [List.foldl_cons, ih.2.1, hids.1]
    · rw [List.foldl_cons, ih.2.2.1, hids.2]
    · rw [List.foldl_cons, ih.2.2.2 e, hnew e]
      constructor
      · rintro ((h1 | h1) | h1)
        · exact Or.inl h1
        · exact Or.inr (h1 ▸ List.mem_cons_self _ _)
        · exact Or.inr (List.mem_cons_of_mem _ h1)
      · rintro (h1 | h1)
        · exact Or.inl (Or.inl h1)
        · rcases List.mem_cons.mp h1 with h2 | h2
          · exact Or.inl (Or.inr h2)
          · exact Or.inr h2

theorem cleanupDeps_track (w : Nat) (st : WTrack × SubsMap) :
    (cleanupDeps w st).1 =
      { depIds := st.1.newDepIds, newDepIds := [],
        deps := st.1.newDeps, newDeps := [] } := rfl

theorem cleanupDeps_subs (w : Nat) (st : WTrack × SubsMap) :
    (cleanupDeps w st).2 =
      (st.1.deps.reverse).foldl
        (fun m d => if d ∈ st.1.newDepIds then m else removeSub m d w)
        st.2 := rfl

theorem notifyRun_aux {σ : Type} (update : σ → Nat → σ) :
    ∀ (order : List Nat) (s : σ) (acc : List Nat),
    (order.foldl (fun acc i => (update acc.1 i, acc.2 ++ [i])) (s, acc)).2 =
      acc ++ order
  | [], s, acc => by simp
  | i :: order, s, acc => by
    rw [List.foldl_cons, notifyRun_aux update order (update s i) (acc ++ [i])]
    simp

theorem notifyRun_dispatches {σ : Type} (update : σ → Nat → σ) (s : σ)
    (order : List Nat) : (notifyRun update s order).2 = order := by
  simpa using notifyRun_aux update order s []

/-- C1: after a completed evaluation of watcher `w` that reached `depend()`
on exactly the ids `reads`, the previous-generation set `depIds` (and the
parallel `deps` array) equals exactly the set of ids read, `cleanupDeps` has
removed `w` from the subscriber list of every dependency of the previous
generation that was not read again, both new-generation collections are
cleared, and `w` sits on a dependency's subscriber list exactly when that
dependency was read — so a later `notify()` of an unread dependency never
dispatches `w` (its snapshot does not contain `w`). -/
theorem c1_deps_exact_after_run (w dq : Nat) (t : WTrack) (m : SubsMap)
    (reads : List Nat)
    (h0 : t.newDepIds = []) (h1 : t.newDeps = [])
    (h2 : t.deps = t.depIds) (h3 : t.depIds.Nodup)
    (h4 : ∀ d, w ∈ m d ↔ d ∈ t.depIds)
    (h5 : ∀ d, (m d).count w ≤ 1) :
    (dq ∈ (runReads w (t, m) reads).1.depIds ↔ dq ∈ reads) ∧
    (runReads w (t, m) reads).1.newDepIds = [] ∧
    (runReads w (t, m) reads).1.newDeps = [] ∧
    (runReads w (t, m) reads).1.deps = (runReads w (t, m) reads).1.depIds ∧
    (w ∈ (runReads w (t, m) reads).2 dq ↔ dq ∈ reads) ∧
    (dq ∉ reads → ∀ dev async,
      w ∉ notifySnapshot dev async ((runReads w (t, m) reads).2 dq)) := by
  have hinv : TrackInv w (t, m) := by
    refine ⟨by simp [h1, h0], h2, by simp [h0], h3, fun d => ?_, h5⟩
    rw [h0]
    simpa using h4 d
  obtain ⟨finv, fdep, fdeps, fnew⟩ := foldl_addDep_spec w reads (t, m) hinv
  have hF := finv
  obtain ⟨g1, g2, g3, g4, g5, g6⟩ := hF
  have hread : ∀ e, e ∈ (reads.foldl (addDep w) (t, m)).1.newDepIds ↔
      e ∈ reads := by
    intro e
    rw [fnew e]
    simp [h0]
  have hcf := cleanupFold_spec
    ((reads.foldl (addDep w) (t, m)).1.newDepIds) w
    ((reads.foldl (addDep w) (t, m)).1.deps.reverse)
    ((reads.foldl (addDep w) (t, m)).2) g6
  have hdep2 : (reads.foldl (addDep w) (t, m)).1.depIds = t.depIds := fdep
  have hds2 : (reads.foldl (addDep w) (t, m)).1.deps = t.depIds :=
    fdeps.trans h2
  have hmem : ∀ e, w ∈ (runReads w (t, m) reads).2 e ↔ e ∈ reads := by
    intro e
    show w ∈ (cleanupDeps w (reads.foldl (addDep w) (t, m))).2 e ↔ e ∈ reads
    rw [cleanupDeps_subs, hcf.2 e, g5 e, hdep2, hds2, List.mem_reverse,
        hread e]
    constructor
    · rintro ⟨hor, himp⟩
      rcases hor with h1 | h1
      · exact himp h1
      · exact h1
    · intro hr
      exact ⟨Or.inr hr, fun _ => hr⟩
  refine ⟨?_, rfl, rfl, ?_, hmem dq, ?_⟩
  · show dq ∈ (cleanupDeps w (reads.foldl (addDep w) (t, m))).1.depIds ↔ _
    rw [cleanupDeps_track]
    exact hread dq
  · show (cleanupDeps w (reads.foldl (addDep w) (t, m))).1.deps =
      (cleanupDeps w (reads.foldl (addDep w) (t, m))).1.depIds
    rw [cleanupDeps_track]
    exact g1
  · intro hout dev async
    have hni : w ∉ (runReads w (t, m) reads).2 dq := by
      rw [hmem dq]
      exact hout
    intro hmem2
    apply hni
    unfold notifySnapshot at hmem2
    by_cases hcase : (dev && !async) = true
    · rw [if_pos hcase] at hmem2
      exact (List.perm_insertionSort (· ≤ ·) _).mem_iff.mp hmem2
    · rw [if_neg hcase] at hmem2
      exact hmem2

/-- C1 witness: a fresh watcher `1` that reads dependency `7` twice and `9`
once ends up subscribed to `7`, with cleared new-generation state, and a
later notification of the unread dependency `5` does not contain it. -/
theorem c1_witness :
    (1 ∈ (runReads 1 (emptyTrack, emptySubs) [7, 7, 9]).2 7) ∧
    (runReads 1 (emptyTrack, emptySubs) [7, 7, 9]).1.newDepIds = [] ∧
    (1 ∉ notifySnapshot true true
      ((runReads 1 (emptyTrack, emptySubs) [7, 7, 9]).2 5)) := by
  have h7 := c1_deps_exact_after_run 1 7 emptyTrack emptySubs [7, 7, 9]
    rfl rfl rfl (by simp [emptyTrack])
    (fun d => by simp [emptySubs, emptyTrack]) (fun d => by simp [emptySubs])
  have h5 := c1_deps_exact_after_run 1 5 emptyTrack emptySubs [7, 7, 9]
    rfl rfl rfl (by simp [emptyTrack])
    (fun d => by simp [emptySubs, emptyTrack]) (fun d => by simp [emptySubs])
  exact ⟨(h7.2.2.2.2.1).mpr (by simp), h7.2.1,
    (h5.2.2.2.2.2 (by simp)) true true⟩

/-- C2 counterexample: a reactive field defined over a getter with no setter
and current value `0`.  Writing `1` passes the equality check (it is neither
strictly equal nor a NaN pair), so the claim requires the value to be stored,
observed, and `notify()` to be called — but `reactiveSetter` hits the
`if (getter && !setter) return` guard (line 233) and the write is a complete
no-op: the state is unchanged and `notifies` stays `0`. -/
theorem c2_counterexample :
    gOnlyField.reactive = true ∧
    strictEq (Value.num 1) (currentValue gOnlyField) = false ∧
    isNaNv (Value.num 1) = false ∧
    writeField gOnlyField (Value.num 1) = gOnlyField ∧
    (writeField gOnlyField (Value.num 1)).notifies = 0 := by
  refine ⟨rfl, rfl, rfl, rfl, rfl⟩

/-- C2 (amended): on a reactive field, writing a strictly-equal value, or NaN
over NaN, is a complete no-op (state unchanged, nothing stored or observed,
no notification); in every other case — except when the field was defined
over a getter with no setter, where the write is dropped entirely — the new
value is stored (into the closure `val`, or forwarded to the captured
setter), passed to `observe`, and the field's Dependency is notified once. -/
theorem c2_write_noop_and_update (f : FieldState) (nv : Value)
    (hre : f.reactive = true) :
    ((strictEq nv (currentValue f) ||
        (isNaNv nv && isNaNv (currentValue f))) = true →
      writeField f nv = f) ∧
    ((strictEq nv (currentValue f) ||
        (isNaNv nv && isNaNv (currentValue f))) = false →
     (f.hasGetter = true → f.hasSetter = true) →
      (writeField f nv).notifies = f.notifies + 1 ∧
      (writeField f nv).observeCalls = f.observeCalls ++ [nv] ∧
      (writeField f nv).childOb = observeWraps nv ∧
      (f.hasSetter = true →
        (writeField f nv).setterCalls = f.setterCalls ++ [nv]) ∧
      (f.hasSetter = false → (writeField f nv).val = nv)) := by
  constructor
  · intro heq
    simp [writeField, hre, heq]
  · intro heq hgs
    cases hs : f.hasSetter
    · have hgf : f.hasGetter = false := by
        cases h2 : f.hasGetter
        · rfl
        · rw [hgs h2] at hs
          exact absurd hs (by simp)
      simp [writeField, hre, heq, hs, hgf]
    · simp [writeField, hre, heq, hs]

/-- C2 witness: on an ordinary reactive data field holding `0`, writing `0`
is a no-op, and writing `1` stores it and notifies once. -/
theorem c2_witness :
    writeField dataField (Value.num 0) = dataField ∧
    (writeField dataField (Value.num 1)).notifies = 1 ∧
    (writeField dataField (Value.num 1)).val = Value.num 1 := by
  have h0 := c2_write_noop_and_update dataField (Value.num 0) rfl
  have h1 := c2_write_noop_and_update dataField (Value.num 1) rfl
  refine ⟨h0.1 (by decide), ?_, ?_⟩
  · have := (h1.2 (by decide) (by intro h; cases h)).1
    simpa [dataField] using this
  · exact (h1.2 (by decide) (by intro h; cases h)).2.2.2.2 rfl

/-- C3 counterexample: in a production build (`process.env.NODE_ENV` is
production) with `config.async === false`, `notify` does not sort the
snapshot — the sort at dep lines 76-81 is additionally gated on a
non-production build — so with subscribers `[2, 1]` the `update()` calls are
dispatched in the order `2, 1`, not in ascending subscriber-id order as the
claim requires for every synchronous (non-async) run. -/
theorem c3_counterexample :
    notifySnapshot false false [2, 1] = [2, 1] ∧
    ¬ List.Sorted (· ≤ ·) (notifySnapshot false false [2, 1]) := by
  refine ⟨rfl, ?_⟩
  intro hs
  have h := List.sorted_cons.mp hs
  have h2 := h.1 1 (by simp)
  omega

/-- C3 (amended): `notify()` snapshots the subscriber list and then invokes
`update()` on exactly the elements of that snapshot in snapshot order, no
matter how the dispatched updates mutate the state (including a subscriber
removing itself); the snapshot contains the same subscribers as the list at
call time; and when the build is non-production and the global mode is
synchronous (`!config.async`), the snapshot is additionally sorted in
ascending subscriber-id order (a permutation of the original list), while a
production build dispatches the unsorted snapshot even in synchronous
mode. -/
theorem c3_notify_snapshot_dispatch {σ : Type} (dev async : Bool)
    (subs : List Nat) (update : σ → Nat → σ) (s : σ) :
    (notifyRun update s (notifySnapshot dev async subs)).2 =
      notifySnapshot dev async subs ∧
    (∀ i, i ∈ notifySnapshot dev async subs ↔ i ∈ subs) ∧
    (dev = true → async = false →
      List.Sorted (· ≤ ·) (notifySnapshot dev async subs) ∧
      (notifySnapshot dev async subs).Perm subs) ∧
    (dev = false ∨ async = true → notifySnapshot dev async subs = subs) := by
  refine ⟨notifyRun_dispatches update s _, fun i => ?_, ?_, ?_⟩
  · unfold notifySnapshot
    by_cases hc : (dev && !async) = true
    · rw [if_pos hc]
      exact (List.perm_insertionSort (· ≤ ·) subs).mem_iff
    · rw [if_neg hc]
  · intro hd ha
    subst hd
    subst ha
    constructor
    · exact List.sorted_insertionSort (· ≤ ·) subs
    · exact List.perm_insertionSort (· ≤ ·) subs
  · intro h
    unfold notifySnapshot
    rcases h with h | h <;> subst h <;> simp

/-- C3 witness: in dev non-async mode, the snapshot of `[3, 1, 2]` is sorted
and the dispatch sequence equals the snapshot. -/
theorem c3_witness :
    List.Sorted (· ≤ ·) (notifySnapshot true false [3, 1, 2]) ∧
    (notifyRun (fun (n : Nat) i => n + i) 0
      (notifySnapshot true false [3, 1, 2])).2 =
      notifySnapshot true false [3, 1, 2] := by
  have h := c3_notify_snapshot_dispatch true false [3, 1, 2]
    (fun (n : Nat) i => n + i) 0
  exact ⟨(h.2.2.1 rfl rfl).1, h.1⟩

/-- A get-state fixture: empty stack, fresh generations, empty subscriber
lists, no handled errors. -/
def exGetState : GetState :=
  { stack := [], track := emptyTrack, subs := emptySubs, handled := 0 }

/-- C4 counterexample: a non-user subscriber that is not the primary render
subscriber (`isRender = false`; `get` never consults render status — being
the render watcher only sets `vm._watcher` in the constructor) whose
evaluation throws.  The error propagates out of `get()` (watcher lines
121-126 rethrow for every non-user watcher), refuting the claim that among
non-user subscribers the error is rethrown only for the primary render
subscriber. -/
theorem c4_counterexample :
    (getModel 5 false false [] true exGetState).2 = true := rfl

/-- C4 (amended): `get()` pushes the subscriber onto the target stack before
evaluating (the stack top during evaluation is the subscriber), and whether
or not the evaluation throws, the stack is popped back to the previous top
and dependency cleanup runs (the new-generation collections are left
cleared); a thrown evaluation error is caught and counted through the error
channel exactly when the subscriber is user-facing, and propagates to the
caller for every non-user subscriber — the primary render subscriber
included, but not it alone. -/
theorem c4_get_stack_cleanup_errors (w : Nat) (user isRender : Bool)
    (reads : List Nat) (throws : Bool) (s : GetState) :
    (getModel w user isRender reads throws s).1.stack = s.stack ∧
    depTarget (pushTarget w s.stack) = some w ∧
    (getModel w user isRender reads throws s).1.track.newDepIds = [] ∧
    (getModel w user isRender reads throws s).1.track.newDeps = [] ∧
    (getModel w user isRender reads throws s).2 = (throws && !user) ∧
    (throws = true → user = true →
      (getModel w user isRender reads throws s).1.handled = s.handled + 1 ∧
      (getModel w user isRender reads throws s).2 = false) ∧
    (throws = true → user = false →
      (getModel w user isRender reads throws s).2 = true) ∧
    (throws = false →
      (getModel w user isRender reads throws s).1.handled = s.handled) := by
  refine ⟨rfl, rfl, rfl, rfl, rfl, ?_, ?_, ?_⟩
  · intro ht hu
    subst ht
    subst hu
    exact ⟨rfl, rfl⟩
  · intro ht hu
    subst ht
    subst hu
    rfl
  · intro ht
    subst ht
    rfl

/-- C4 witness: a user-facing subscriber whose evaluation throws has the
error handled (not propagated), the stack restored, and cleanup run. -/
theorem c4_witness :
    (getModel 3 true false [4] true exGetState).1.stack = [] ∧
    (getModel 3 true false [4] true exGetState).1.track.newDepIds = [] ∧
    (getModel 3 true false [4] true exGetState).1.handled = 1 ∧
    (getModel 3 true false [4] true exGetState).2 = false := by
  have h := c4_get_stack_cleanup_errors 3 true false [4] true exGetState
  exact ⟨h.1, h.2.2.1, (h.2.2.2.2.2.1 rfl rfl).1, (h.2.2.2.2.2.1 rfl rfl).2⟩

/-- C5: `observe` is idempotent — on a non-VNode object already carrying the
observer marker it returns that same existing observer and never creates a
new one (so a value is wrapped by at most one Observer) — and, for a value
not already wrapped, it returns no observer when the value is not an object,
is a VNode, is neither an array nor a plain object, is non-extensible, is a
Vue instance, or when observation is globally disabled.  (The unwrapped
hypothesis on the latter group mirrors the source's check order: the
existing-marker branch precedes the creation conditions.) -/
theorem c5_observe_idempotent_none (so sr : Bool) (v : VDesc) (i : Nat) :
    (v.isObj = true → v.isVNode = false → v.hasOb = some i →
      observe so sr v = .existing i) ∧
    (v.isObj = false → observe so sr v = .noneR) ∧
    (v.isVNode = true → observe so sr v = .noneR) ∧
    (v.hasOb = none → v.isArray = false → v.isPlain = false →
      observe so sr v = .noneR) ∧
    (v.hasOb = none → v.extensible = false → observe so sr v = .noneR) ∧
    (v.hasOb = none → v.isVue = true → observe so sr v = .noneR) ∧
    (v.hasOb = none → so = false → observe so sr v = .noneR) ∧
    (∀ j, v.hasOb = some j → observe so sr v ≠ .created) := by
  obtain ⟨io, ivn, hob, ia, ip, ex, ivu⟩ := v
  refine ⟨?_, ?_, ?_, ?_, ?_, ?_, ?_, ?_⟩
  · intro h1 h2 h3
    subst h1
    subst h2
    subst h3
    simp [observe]
  · intro h1
    subst h1
    simp [observe]
  · intro h1
    subst h1
    simp [observe]
  · intro h1 h2 h3
    subst h1
    subst h2
    subst h3
    cases io <;> cases ivn <;> simp [observe]
  · intro h1 h2
    subst h1
    subst h2
    cases io <;> cases ivn <;> simp [observe]
  · intro h1 h2
    subst h1
    subst h2
    cases io <;> cases ivn <;> simp [observe]
  · intro h1 h2
    subst h1
    subst h2
    cases io <;> cases ivn <;> simp [observe]
  · intro j hj
    subst hj
    cases io <;> cases ivn <;> simp [observe]

/-- C5 witness: an already-wrapped plain object that has since been made
non-extensible still yields its existing observer even with observation
disabled, and a fresh frozen object yields none. -/
theorem c5_witness :
    observe false false
      { isObj := true, isVNode := false, hasOb := some 3, isArray := false,
        isPlain := true, extensible := false, isVue := false } =
      ObsResult.existing 3 ∧
    observe true false
      { isObj := true, isVNode := false, hasOb := none, isArray := false,
        isPlain := true, extensible := false, isVue := false } =
      ObsResult.noneR := by
  have h1 := c5_observe_idempotent_none false false
    { isObj := true, isVNode := false, hasOb := some 3, isArray := false,
      isPlain := true, extensible := false, isVue := false } 3
  have h2 := c5_observe_idempotent_none true false
    { isObj := true, isVNode := false, hasOb := none, isArray := false,
      isPlain := true, extensible := false, isVue := false } 0
  exact ⟨h1.1 rfl rfl rfl, h2.2.2.2.2.1 rfl rfl⟩

/-- C6 counterexample: in a production build, `set(undefined, key, val)` is
not "reported and does not throw" — the dev-only guard at lines 258-262
emits nothing (zero warnings) and execution falls through to
`key in target`, which throws a `TypeError` on `undefined`. -/
theorem c6_counterexample :
    set false STarget.undef "x" (Value.num 1) =
      (0, Except.error JsErr.typeError) := rfl

/-- C6 (amended): `set` on an existing own key of an observed object (when
the key does not also exist on `Object.prototype`) behaves like a normal
field write through the slot's setter path and does not touch the identity
Dependency; on a key the object does not own, when the object is observed,
non-root (`vmCount = 0`), and not a Vue instance, it defines the key as a
reactive field and then notifies the container's identity Dependency
(`ob.dep.notify()`); and `set` on an undefined, null, or primitive target
warns only in a non-production build and then throws a `TypeError` at the
`key in target` test — in production it throws without any report. -/
theorem c6_set_existing_new_invalid (dev : Bool) (o : OTarget) (key : String)
    (val : Value) (pv : Value) :
    ((findField o.fields key).isSome = true → keyInObjectProto key = false →
      set dev (.obj o) key val =
        (0, .ok { ret := val,
                  outcome := .wroteExisting
                    { o with fields :=
                        updateAssoc o.fields key (fun f => writeField f val) },
                  identityNotifies := 0 })) ∧
    (findField o.fields key = none → o.observed = true → o.vmCount = 0 →
     o.isVue = false →
      set dev (.obj o) key val =
        (0, .ok { ret := val,
                  outcome := .definedReactive
                    { o with fields :=
                        putAssoc o.fields key (defineReactiveOn false val none) },
                  identityNotifies := 1 })) ∧
    (set dev STarget.undef key val =
      ((if dev then 1 else 0), .error .typeError)) ∧
    (set dev STarget.nullv key val =
      ((if dev then 1 else 0), .error .typeError)) ∧
    (set dev (STarget.prim pv) key val =
      ((if dev then 1 else 0), .error .typeError)) := by
  refine ⟨?_, ?_, rfl, rfl, rfl⟩
  · intro hf hp
    obtain ⟨f, hf2⟩ := Option.isSome_iff_exists.mp hf
    simp [set, jsAssign, hf2, hp]
  · intro hf ho hv hi
    cases hp2 : keyInObjectProto key <;> simp [set, hf, ho, hv, hi, hp2]

/-- C6 witness: on the observed non-root object with own reactive field `a`
holding `0`, `set` of `a := 1` runs the reactive setter (the field notifies,
no identity notification), and `set` of the new key `b := 2` defines `b`
reactive and notifies the identity Dependency once; on `undefined` in dev
mode, one warning is emitted and a `TypeError` is thrown. -/
theorem c6_witness :
    (set false (.obj sampleObj) "a" (Value.num 1) =
      (0, .ok { ret := Value.num 1,
                outcome := .wroteExisting
                  { sampleObj with fields := updateAssoc sampleObj.fields "a" (fun f => writeField f (Value.num 1)) },
                identityNotifies := 0 })) ∧
    (set false (.obj sampleObj) "b" (Value.num 2) =
      (0, .ok { ret := Value.num 2,
                outcome := .definedReactive
                  { sampleObj with fields := putAssoc sampleObj.fields "b" (defineReactiveOn false (Value.num 2) none) },
                identityNotifies := 1 })) ∧
    (set true STarget.undef "x" (Value.num 1) =
      (1, Except.error JsErr.typeError)) := by
  have ha := c6_set_existing_new_invalid false sampleObj "a" (Value.num 1)
    Value.undef
  have hb := c6_set_existing_new_invalid false sampleObj "b" (Value.num 2)
    Value.undef
  have hu := c6_set_existing_new_invalid true sampleObj "x" (Value.num 1)
    Value.undef
  refine ⟨ha.1 (by decide) (by decide), hb.2.1 (by decide) rfl rfl rfl, ?_⟩
  have := hu.2.2.1
  simpa using this

/-- C7: `run()` does nothing unless the subscriber is `active`; when active,
it invokes the callback with `(newValue, oldValue)` — storing the new value
first — exactly when the new value is not strictly equal to the cached one,
or is an object/container (identity comparison), or the subscriber is in
deep mode; a throwing callback is caught and handled for user-facing
subscribers and propagates (is rethrown) for every other subscriber. -/
theorem c7_run_fire_condition (rw : RunWatcher) (nv : Value) (cb : Bool) :
    (rw.active = false → runModel rw nv cb = (rw, false)) ∧
    (rw.active = true →
      ((!strictEq nv rw.value || isObjectV nv || rw.deep) = true →
        (runModel rw nv cb).1.cbCalls = rw.cbCalls ++ [(nv, rw.value)] ∧
        (runModel rw nv cb).1.value = nv) ∧
      ((!strictEq nv rw.value || isObjectV nv || rw.deep) = false →
        runModel rw nv cb = (rw, false)) ∧
      (cb = true → (!strictEq nv rw.value || isObjectV nv || rw.deep) = true →
        (rw.user = true → (runModel rw nv cb).2 = false ∧
          (runModel rw nv cb).1.handled = rw.handled + 1) ∧
        (rw.user = false → (runModel rw nv cb).2 = true))) := by
  constructor
  · intro ha
    simp [runModel, ha]
  · intro ha
    refine ⟨?_, ?_, ?_⟩
    · intro hc
      cases hu : rw.user <;> cases hb : cb <;>
        simp [runModel, ha, hc, hu, hb]
    · intro hc
      simp [runModel, ha, hc]
    · intro hb hc
      subst hb
      constructor
      · intro hu
        simp [runModel, ha, hc, hu]
      · intro hu
        simp [runModel, ha, hc, hu]

/-- A run-state fixture: an active, non-deep, non-user subscriber caching `0`. -/
def exRunWatcher : RunWatcher :=
  { active := true, deep := false, user := false, value := Value.num 0,
    cbCalls := [], handled := 0 }

/-- C7 witness: with cached value `0`, running with new value `1` fires the
callback with `(1, 0)`; running with the identical `0` does not fire; a
throwing callback propagates for this non-user subscriber. -/
theorem c7_witness :
    (runModel exRunWatcher (Value.num 1) false).1.cbCalls =
      [(Value.num 1, Value.num 0)] ∧
    runModel exRunWatcher (Value.num 0) false = (exRunWatcher, false) ∧
    (runModel exRunWatcher (Value.num 1) true).2 = true := by
  have h1 := c7_run_fire_condition exRunWatcher (Value.num 1) false
  have h0 := c7_run_fire_condition exRunWatcher (Value.num 0) false
  have ht := c7_run_fire_condition exRunWatcher (Value.num 1) true
  refine ⟨?_, (h0.2 rfl).2.1 (by decide), ((ht.2 rfl).2.2 rfl (by decide)).2 rfl⟩
  have := ((h1.2 rfl).1 (by decide)).1
  simpa [exRunWatcher] using this

/-- C8: `teardown()` is idempotent — the second application equals the first
(after the first call `active` is false, and `teardown` on an inactive
subscriber observes no state change) — and the first call on an active
subscriber leaves it absent from the subscriber list of every dependency it
holds (the duplicate-freedom hypothesis makes the single `removeSub` splice a
full removal).  The model is a total function: no path throws. -/
theorem c8_teardown_idempotent (w dq : Nat) (s : TDState)
    (hc : ∀ d, (s.subs d).count w ≤ 1) :
    teardownModel w (teardownModel w s) = teardownModel w s ∧
    (teardownModel w s).active = false ∧
    (s.active = true → dq ∈ s.deps →
      w ∉ (teardownModel w s).subs dq) := by
  by_cases ha : s.active
  · have hact : (teardownModel w s).active = false := by
      simp [teardownModel, ha]
    refine ⟨?_, hact, ?_⟩
    · conv_lhs => rw [teardownModel]
      rw [if_neg (by rw [hact]; exact fun h => nomatch h)]
    · intro _ hdq
      have hsubs : (teardownModel w s).subs =
          (s.deps.reverse).foldl (fun m d => removeSub m d w) s.subs := by
        simp [teardownModel, ha]
      rw [hsubs]
      rw [teardownFold_spec w (s.deps.reverse) s.subs hc dq]
      rintro ⟨-, hnot⟩
      exact hnot (List.mem_reverse.mpr hdq)
  · have hs : teardownModel w s = s := by
      simp [teardownModel, ha]
    have ha2 : s.active = false := by
      cases h2 : s.active
      · rfl
      · exact absurd h2 ha
    refine ⟨by rw [hs, hs], by rw [hs]; exact ha2, ?_⟩
    intro h2
    exact absurd h2 ha

/-- A teardown fixture: an active watcher `4` holding dependencies `1` and
`2`, each of whose subscriber lists contains it once. -/
def exTDState : TDState :=
  { active := true, deps := [1, 2],
    subs := fun d => if d = 1 then [4] else if d = 2 then [9, 4] else [],
    vmWatchers := [4], destroying := false }

/-- C8 witness: tearing watcher `4` down removes it from both held
dependencies, a second teardown changes nothing, and the result is
inactive. -/
theorem c8_witness :
    teardownModel 4 (teardownModel 4 exTDState) = teardownModel 4 exTDState ∧
    (teardownModel 4 exTDState).active = false ∧
    (4 ∉ (teardownModel 4 exTDState).subs 2) := by
  have h := c8_teardown_idempotent 4 2 exTDState
    (fun d => by
      by_cases h1 : d = 1
      · simp [exTDState, h1]
      · by_cases h2 : d = 2
        · simp [exTDState, h1, h2]
        · simp [exTDState, h1, h2])
  exact ⟨h.1, h.2.1, h.2.2 rfl (by simp [exTDState])⟩

/-- C9: when the object already has a property descriptor for the key with
`configurable === false`, `defineReactive` returns before installing any
interceptor — the slot is returned untouched and stays non-reactive — and
on such a plain slot a read registers no dependency (no `depend()` call,
whatever the active target) and a write never calls `notify()`. -/
theorem c9_nonconfigurable_skipped (f : FieldState) (b tgt : Bool)
    (av nv : Value)
    (h1 : f.configurable = false) (h2 : f.reactive = false) :
    defineReactiveOn b av (some f) = f ∧
    readField tgt f = (currentValue f, f) ∧
    (readField tgt f).2.dependCalls = f.dependCalls ∧
    (writeField f nv).notifies = f.notifies ∧
    (writeField f nv).dependCalls = f.dependCalls := by
  have hd : defineReactiveOn b av (some f) = f := by
    simp [defineReactiveOn, h1]
  have hr : readField tgt f = (currentValue f, f) := by
    simp [readField, h2]
  refine ⟨hd, hr, by rw [hr], ?_, ?_⟩
  · unfold writeField
    rw [h2]
    simp only [Bool.false_eq_true, if_false]
    split
    · rfl
    · split <;> rfl
  · unfold writeField
    rw [h2]
    simp only [Bool.false_eq_true, if_false]
    split
    · rfl
    · split <;> rfl

/-- C9 witness: the non-configurable plain slot holding `7` is returned
untouched by `defineReactive`, reads register nothing even with an active
target, and a write of `8` notifies nobody. -/
theorem c9_witness :
    defineReactiveOn true Value.undef (some frozenField) = frozenField ∧
    (readField true frozenField).2.dependCalls = 0 ∧
    (writeField frozenField (Value.num 8)).notifies = 0 := by
  have h := c9_nonconfigurable_skipped frozenField true true Value.undef
    (Value.num 8) rfl rfl
  exact ⟨h.1, h.2.2.1, h.2.2.2.1⟩

/-- C10: on a reactive field defined over a getter with no setter, every
write that passes the equality check (the new value is neither strictly
equal to the current value nor a NaN written over NaN) returns at the
`if (getter && !setter) return` guard: the whole field state — stored value,
visible value, observe record, notification count — is unchanged. -/
theorem c10_getter_only_write_frame (f : FieldState) (nv : Value)
    (h1 : f.reactive = true) (h2 : f.hasGetter = true)
    (h3 : f.hasSetter = false)
    (h4 : (strictEq nv (currentValue f) ||
      (isNaNv nv && isNaNv (currentValue f))) = false) :
    writeField f nv = f ∧
    currentValue (writeField f nv) = currentValue f ∧
    (writeField f nv).notifies = f.notifies ∧
    (writeField f nv).observeCalls = f.observeCalls ∧
    (writeField f nv).val = f.val := by
  have he : writeField f nv = f := by
    simp [writeField, h1, h2, h3, h4]
  exact ⟨he, by rw [he], by rw [he], by rw [he], by rw [he]⟩

/-- C10 witness: writing `1` over the getter-only field currently reading
`0` passes the equality check yet leaves the field state untouched. -/
theorem c10_witness :
    writeField gOnlyField (Value.num 1) = gOnlyField ∧
    (writeField gOnlyField (Value.num 1)).notifies = 0 := by
  have h := c10_getter_only_write_frame gOnlyField (Value.num 1)
    rfl rfl rfl (by decide)
  exact ⟨h.1, by rw [h.1]; rfl⟩

end Vue
